import Mathlib

/-!
# Verification of the docker-swarm-secrets interpretation pipeline

Shallow embedding of the repository's secret readers and default
interpreters:

* `DSSReader` (src/reader/dss-reader.ts): the v2 reader class.
* `SecretReader` (src/reader/secret-reader.ts): the later reader class with a
  `secretsCache` field.
* `DefaultInterpretersSync` (src/interpreters/default-interpreters-sync.ts)
  and the `DefaultInterpreters` class of src/interpreters/interpreters.ts
  (same bodies for `asJSON` / `asTextOrJSON`).

JavaScript dynamic values are embedded as the inductive `Val`; `Buffer`s are
byte lists; `Buffer.prototype.toString(encoding)` is an explicit `decode`
function parameter (one per encoding); `JSON.parse` is the executable
`jsonParse` below, with `none` standing for a thrown `SyntaxError`.
Promise-returning and synchronous variants have identical pure bodies, so
both are embedded as pure functions; `fs` reads are a directory association
list plus an explicit error-code outcome where the claims concern I/O
failures.
-/

namespace DSS

/-- JavaScript runtime values, as far as the pipeline observes them.
The constructor `undefined` is the JS `undefined`, `buf` a Node `Buffer`,
`obj` a plain object given by its own enumerable properties in insertion
order. -/
inductive Val where
  | undefined : Val
  | nullv : Val
  | bool : Bool → Val
  | num : Int → Val
  | str : String → Val
  | buf : List Nat → Val
  | arr : List Val → Val
  | obj : List (String × Val) → Val

/-- Skip JSON whitespace. -/
def skipWs : List Char → List Char
  | c :: rest =>
    if c = ' ' ∨ c = '\t' ∨ c = '\n' ∨ c = '\r' then skipWs rest else c :: rest
  | [] => []

/-- Accumulate a run of decimal digits into a natural number. -/
def parseDigitsAux (acc : Nat) : List Char → Nat × List Char
  | c :: rest =>
    if c.isDigit then parseDigitsAux (acc * 10 + (c.toNat - 48)) rest
    else (acc, c :: rest)
  | [] => (acc, [])

/-- Parse a run of decimal digits (at least one) into a natural number. -/
def parseDigits : List Char → Option (Nat × List Char)
  | c :: rest =>
    if c.isDigit then some (parseDigitsAux (c.toNat - 48) rest) else none
  | [] => none

/-- Characters of a JSON string body up to the closing quote.  The model
covers strings without escape sequences (a backslash fails the parse). -/
def parseStrChars : List Char → Option (List Char × List Char)
  | c :: rest =>
    if c = '"' then some ([], rest)
    else if c = '\\' then none
    else
      match parseStrChars rest with
      | some (s, r) => some (c :: s, r)
      | none => none
  | [] => none

/-- JSON string body (after the opening quote). -/
def parseStringBody (cs : List Char) : Option (String × List Char) :=
  (parseStrChars cs).map fun p => (String.mk p.1, p.2)

mutual

/-- Recursive-descent model of `JSON.parse` on one value.  Fuel-indexed so the
recursion is structural; numeric literals are modelled as integers (an
optional minus sign followed by digits). -/
def parseVal : Nat → List Char → Option (Val × List Char)
  | 0, _ => none
  | n + 1, cs =>
    match skipWs cs with
    | 'n' :: 'u' :: 'l' :: 'l' :: r => some (.nullv, r)
    | 't' :: 'r' :: 'u' :: 'e' :: r => some (.bool true, r)
    | 'f' :: 'a' :: 'l' :: 's' :: 'e' :: r => some (.bool false, r)
    | '"' :: r => (parseStringBody r).map fun p => (.str p.1, p.2)
    | '[' :: r =>
      match skipWs r with
      | ']' :: r2 => some (.arr [], r2)
      | r2 => (parseElems n r2).map fun p => (.arr p.1, p.2)
    | '{' :: r =>
      match skipWs r with
      | '}' :: r2 => some (.obj [], r2)
      | r2 => (parseMembers n r2).map fun p => (.obj p.1, p.2)
    | '-' :: r => (parseDigits r).map fun p => (.num (-(p.1 : Int)), p.2)
    | c :: r =>
      if c.isDigit then (parseDigits (c :: r)).map fun p => (.num (p.1 : Int), p.2)
      else none
    | [] => none

/-- Comma-separated array elements, ending at `]`. -/
def parseElems : Nat → List Char → Option (List Val × List Char)
  | 0, _ => none
  | n + 1, cs =>
    match parseVal n cs with
    | some (v, r) =>
      match skipWs r with
      | ',' :: r2 =>
        match parseElems n r2 with
        | some (vs, r3) => some (v :: vs, r3)
        | none => none
      | ']' :: r2 => some ([v], r2)
      | _ => none
    | none => none

/-- Comma-separated `"key": value` members, ending at `}`. -/
def parseMembers : Nat → List Char → Option (List (String × Val) × List Char)
  | 0, _ => none
  | n + 1, cs =>
    match skipWs cs with
    | '"' :: r =>
      match parseStringBody r with
      | some (k, r1) =>
        match skipWs r1 with
        | ':' :: r2 =>
          match parseVal n r2 with
          | some (v, r3) =>
            match skipWs r3 with
            | ',' :: r4 =>
              match parseMembers n r4 with
              | some (ms, r5) => some ((k, v) :: ms, r5)
              | none => none
            | '}' :: r4 => some ([(k, v)], r4)
            | _ => none
          | none => none
        | _ => none
      | none => none
    | _ => none

end

/-- Model of `JSON.parse`: parse one value, require only trailing whitespace
after it; `none` models a thrown `SyntaxError`. -/
def jsonParse (s : String) : Option Val :=
  match parseVal (s.length + 1) s.toList with
  | some (v, rest) => if skipWs rest = [] then some v else none
  | none => none

example : jsonParse "" = none := rfl
example : jsonParse "not json" = none := rfl
example : jsonParse " [1, -2, \"x\", true, null] "
    = some (.arr [.num 1, .num (-2), .str "x", .bool true, .nullv]) := rfl
example : jsonParse "0" = some (.num 0) := rfl

/-! ## Data model (src/internal/internal-types.ts) -/

/-- `RawSecret` / `DSSRawSecret`: the pre-interpretation record handed to
predicates and interpreters.  `data` is `none` when no file of that name
exists in the secrets directory. -/
structure RawSecret where
  name : String
  data : Option (List Nat)
deriving Repr, DecidableEq

/-- An interpreter function, `RawSecret → T` in the source; here the JS value
universe `Val` stands for the dynamic result type. -/
abbrev Interpreter := RawSecret → Val

/-- `PredicatedInterpreter`: an interpreter that only runs when its optional
predicate holds. -/
structure PredicatedInterpreter where
  interpreter : Interpreter
  predicate : Option (RawSecret → Bool)

/-- A secrets directory: the regular files (name, byte content) the
filesystem holds at the mount point.  `readdir` lists names in this order;
names are unique per directory listing. -/
abbrev Dir := List (String × List Nat)

/-- Association-list lookup keyed by string (first binding wins), modelling
JS property access on an object used as a map. -/
def alookup {α : Type} : List (String × α) → String → Option α
  | [], _ => none
  | (k, v) :: rest, key => if k = key then some v else alookup rest key

/-- JS object property assignment `o[k] = v`: overwrite the binding in place
if present, otherwise append in insertion order. -/
def aset {α : Type} : List (String × α) → String → α → List (String × α)
  | [], key, v => [(key, v)]
  | (k, w) :: rest, key, v =>
    if k = key then (key, v) :: rest else (k, w) :: aset rest key v

/-! ## JS dynamic shape helpers -/

/-- `typeof v === 'object'` (true for `null`, Buffers, arrays and plain
objects; false for `undefined`, booleans, numbers, strings). -/
def isObjectType : Val → Bool
  | .nullv => true
  | .buf _ => true
  | .arr _ => true
  | .obj _ => true
  | _ => false

/-- `Object.keys(v)`: own enumerable property names.  Buffers and arrays
enumerate their indices.  (`Object.keys(null)` throws in JS; no claim
exercises a `null` interpreter result, and the pipeline never reaches the
key probe with one in the runs modelled here.) -/
def objKeys : Val → List String
  | .obj fs => fs.map Prod.fst
  | .arr xs => (List.range xs.length).map toString
  | .buf bs => (List.range bs.length).map toString
  | _ => []

/-- Property read `v[k]` for a string key; absent keys give `undefined`. -/
def getProp (v : Val) (k : String) : Val :=
  match v with
  | .obj fs => (alookup fs k).getD .undefined
  | _ => .undefined

/-- `SecretReader.isSecretObject` (src/reader/secret-reader.ts):
`typeof secret === 'object' && Object.keys(secret).includes('secret')`.
The body of `SecretReader.read` invokes this check under the name
`isDSSInterpretation`; `isSecretObject` is the only shape probe the class
declares, and is embedded as the referent of that call. -/
def isSecretObject (v : Val) : Bool :=
  isObjectType v && (objKeys v).contains "secret"

/-- Lift an optional data buffer to the JS value an interpreter sees
(`undefined` when the secret file was missing). -/
def bufVal : Option (List Nat) → Val
  | some d => .buf d
  | none => .undefined

/-! ## Default interpreters

`DefaultInterpretersSync` (src/interpreters/default-interpreters-sync.ts)
and the identical-bodied `DefaultInterpreters` class of
src/interpreters/interpreters.ts.  `decode` stands for
`Buffer.prototype.toString(encoding)` at the chosen supported encoding;
the bodies are encoding-independent, so the embeddings take the decode
function itself as the parameter. -/

namespace DefaultInterpretersSync

/-- `asBuffer()`: `rawSecret.data` unchanged. -/
def asBuffer : Interpreter := fun rawSecret => bufVal rawSecret.data

/-- `asText(encoding)`: `rawSecret.data?.toString(encoding)`. -/
def asText (decode : List Nat → String) : Interpreter := fun rawSecret =>
  match rawSecret.data with
  | none => .undefined
  | some d => .str (decode d)

/-- `asJSON(encoding)`: decode to text; `if(!text) return undefined`
(false for the empty string, and for missing data where `text` is
`undefined`); then `JSON.parse` under try/catch, `undefined` on throw. -/
def asJSON (decode : List Nat → String) : Interpreter := fun rawSecret =>
  match rawSecret.data with
  | none => .undefined
  | some d =>
    let text := decode d
    if text = "" then .undefined
    else
      match jsonParse text with
      | some v => v
      | none => .undefined

/-- `asTextOrJSON(encoding)`: like `asJSON` but a parse failure falls back
to the decoded text. -/
def asTextOrJSON (decode : List Nat → String) : Interpreter := fun rawSecret =>
  match rawSecret.data with
  | none => .undefined
  | some d =>
    let text := decode d
    if text = "" then .undefined
    else
      match jsonParse text with
      | some v => v
      | none => .str text

end DefaultInterpretersSync

/-- `Buffer.prototype.toString('ascii')`: each byte masked to 7 bits becomes
one character (a concrete instance of a supported-encoding decode, used for
witnesses and counterexamples). -/
def asciiDecode (bs : List Nat) : String :=
  String.mk (bs.map fun b => Char.ofNat (b % 128))

example : asciiDecode [49] = "1" := rfl
example : asciiDecode [] = "" := rfl
example : DefaultInterpretersSync.asJSON asciiDecode
    ⟨"s", some [123, 34, 97, 34, 58, 49, 125]⟩ = .obj [("a", .num 1)] := rfl

/-! ## Filesystem boundary

`fs.readFile` / `fs.readFileSync` either yield the file bytes or fail with a
Node error carrying a string `code` (`"ENOENT"` for a missing file,
`"EACCES"`, `"EIO"`, ... for other I/O failures). -/

/-- Outcome of one underlying `fs` read. -/
inductive FsResult where
  | ok : List Nat → FsResult
  | err : String → FsResult
deriving Repr, DecidableEq

/-- The `fs` read of `name` against a directory state, when the only failure
mode in play is the file's absence: a missing name fails with `ENOENT`. -/
def fsReadFile (dir : Dir) (name : String) : FsResult :=
  match alookup dir name with
  | some d => .ok d
  | none => .err "ENOENT"

/-- `SecretReader.readSecretFile` / `readSecretFileSync`
(src/reader/secret-reader.ts, identical bodies): catch the read error;
`if (err.code === 'ENOENT') return undefined; throw err`.  `Except.error`
models the rethrow reaching the caller. -/
def SecretReader.readSecretFile : FsResult → Except String (Option (List Nat))
  | .ok d => .ok (some d)
  | .err code => if code = "ENOENT" then .ok none else .error code

/-- `DSSReader.readFileIgnoreMissingSync` (src/reader/dss-reader.ts): the
catch block tests `if (err.code !== 'ENOENT') return undefined; throw err`,
so a missing file throws and every other failure becomes `undefined`. -/
def DSSReader.readFileIgnoreMissingSync : FsResult → Except String (Option (List Nat))
  | .ok d => .ok (some d)
  | .err code => if code ≠ "ENOENT" then .ok none else .error code

/-- `DSSReader.readFileIgnoreMissing` (src/reader/dss-reader.ts): the body
is `try { return fs.promises.readFile(...) }` with no `await`, so the
returned promise's rejection is never observed by the try/catch and every
read error propagates to the caller as a rejection. -/
def DSSReader.readFileIgnoreMissing : FsResult → Except String (Option (List Nat))
  | .ok d => .ok (some d)
  | .err code => .error code

/-! ## SecretReader (src/reader/secret-reader.ts) -/

/-- Entry of `secretsCache` as `SecretReader.read` actually stores it:
`{ name, data, secret, expiresAt }`. -/
structure CacheEntry where
  name : String
  data : Option (List Nat)
  secret : Val
  expiresAt : Int

/-- The `secretsCache` instance field: a JS object keyed by secret name. -/
abbrev Cache := List (String × CacheEntry)

/-- Everything one call of `SecretReader.read` produces: the returned
`{ name, data, secret }` object, the `secretsCache` contents after the call,
and whether the filesystem accessor and the interpreter ran during the call
(in the source both sit on the unconditional path, lines 33 and 36). -/
structure ReadOutcome where
  result : Val
  cache : Cache
  accessorInvoked : Bool
  interpreterInvoked : Bool

/-- The `{name, data, secret}` object literal built by the readers. -/
def secretRecord (name : String) (data : Option (List Nat)) (secret : Val) : Val :=
  .obj [("name", .str name), ("data", bufVal data), ("secret", secret)]

/-- `SecretReader.read(name, interpreter?)` on a directory state in which the
only possible `fs` failure is a missing file (`readSecretFile` then yields
the bytes, or `undefined` when the name has no backing file).  `env` models
`process.env`; the body never consults it.  `now` models `Date.now()`.  The
omitted-interpreter default is `asBuffer` (the async default-interpreters
module is not part of this snapshot; no claim here exercises the default
path).  The interpreter result is unwrapped through the `isSecretObject`
shape probe, and an annotated result with a numeric `cacheFor >= 0` is
written to `secretsCache` with `expiresAt = cacheFor ? now + cacheFor : 0`.
The body contains no cache lookup: every call reads the file and runs the
interpreter. -/
def SecretReader.read (dir : Dir) (env : List (String × String)) (cache : Cache)
    (now : Int) (name : String) (interpreter : Option Interpreter) : ReadOutcome :=
  let data := alookup dir name
  let f := interpreter.getD DefaultInterpretersSync.asBuffer
  let interpreterResult := f ⟨name, data⟩
  let secret :=
    if isSecretObject interpreterResult then getProp interpreterResult "secret"
    else interpreterResult
  let cache' :=
    if isSecretObject interpreterResult then
      match getProp interpreterResult "cacheFor" with
      | .num k =>
        if 0 ≤ k then
          aset cache name ⟨name, data, secret, if k = 0 then 0 else now + k⟩
        else cache
      | _ => cache
    else cache
  { result := secretRecord name data secret
    cache := cache'
    accessorInvoked := true
    interpreterInvoked := true }

/-- `SecretReader.readSecretSync(name, interpreter?)`: read the file, run the
interpreter, return its value as-is (no unwrapping, no caching). -/
def SecretReader.readSecretSync (dir : Dir) (name : String)
    (interpreter : Option Interpreter) : Val :=
  let data := alookup dir name
  (interpreter.getD DefaultInterpretersSync.asBuffer) ⟨name, data⟩

/-- The inner candidate loop shared by both bulk reads: run down the
interpreter list; an entry with no predicate, or whose predicate returns
true, is invoked and the loop breaks; otherwise continue, and with no match
produce nothing. -/
def scanCands (cands : List PredicatedInterpreter) (raw : RawSecret) : Option Val :=
  match cands with
  | [] => none
  | c :: rest =>
    match c.predicate with
    | none => some (c.interpreter raw)
    | some p => if p raw then some (c.interpreter raw) else scanCands rest raw

/-- `SecretReader.readSecrets(interpreters?)` (the non-blocking bulk read)
over a normalized candidate list: for each listed name, read its data and
assign `result[name] = {name, data, secret}` from the first matching
candidate; names matching no candidate are skipped.  `readdir` lists each
name once, so insertion-order consing models the object build. -/
def SecretReader.readSecrets (dir : Dir) (cands : List PredicatedInterpreter) :
    List (String × Val) :=
  match dir with
  | [] => []
  | (name, d) :: rest =>
    match scanCands cands ⟨name, some d⟩ with
    | some secret =>
      (name, secretRecord name (some d) secret) :: SecretReader.readSecrets rest cands
    | none => SecretReader.readSecrets rest cands

/-- `SecretReader.readSecretsSync(interpreters?)` (the blocking bulk read)
over a normalized candidate list: identical traversal, but it assigns
`result[name] = candidate.interpreter({name, data})` — the bare interpreted
value, not a record. -/
def SecretReader.readSecretsSync (dir : Dir) (cands : List PredicatedInterpreter) :
    List (String × Val) :=
  match dir with
  | [] => []
  | (name, d) :: rest =>
    match scanCands cands ⟨name, some d⟩ with
    | some secret => (name, secret) :: SecretReader.readSecretsSync rest cands
    | none => SecretReader.readSecretsSync rest cands

/-! ## DSSReader (src/reader/dss-reader.ts) -/

/-- `DSSReader.readSecret(name, interpreter?)`: read via
`readFileIgnoreMissing` (whose error reaches the caller) and return the
`{name, data, secret}` record with the interpreter's raw return value. -/
def DSSReader.readSecret (dir : Dir) (name : String)
    (interpreter : Option Interpreter) : Except String Val :=
  match DSSReader.readFileIgnoreMissing (fsReadFile dir name) with
  | .error e => .error e
  | .ok data =>
    let secret := (interpreter.getD DefaultInterpretersSync.asBuffer) ⟨name, data⟩
    .ok (secretRecord name data secret)

/-- `DSSReader.readSecrets(interpreters?)` over a normalized candidate list:
an array of `{name, data, secret}` records, pushed for the first matching
candidate of each listed name (the field spelled `prediacte` in that file
plays the predicate role). -/
def DSSReader.readSecrets (dir : Dir) (cands : List PredicatedInterpreter) : List Val :=
  match dir with
  | [] => []
  | (name, d) :: rest =>
    match scanCands cands ⟨name, some d⟩ with
    | some secret => secretRecord name (some d) secret :: DSSReader.readSecrets rest cands
    | none => DSSReader.readSecrets rest cands

/-! ## Helper lemmas -/

theorem jsonParse_empty : jsonParse "" = none := rfl

/-- Every value the parser can produce is built by an explicit constructor,
so a successful parse is never the `undefined` marker. -/
theorem parseVal_ne_undefined (fuel : Nat) (cs rest : List Char)
    (h : parseVal fuel cs = some (Val.undefined, rest)) : False := by
  cases fuel with
  | zero => simp [parseVal] at h
  | succ n =>
    rw [parseVal] at h
    repeat' split at h
    all_goals simp_all [Option.map_eq_some']

/-- A successful `JSON.parse` never yields the `undefined` marker. -/
theorem jsonParse_ne_undefined (s : String) (h : jsonParse s = some Val.undefined) : False := by
  rw [jsonParse] at h
  split at h
  · split at h
    · rename_i p heq _
      cases h
      exact parseVal_ne_undefined _ _ _ heq
    · exact Option.noConfusion h
  · exact Option.noConfusion h

/-! ## Claims -/

/-- C1: reading a name with no backing file is claimed to complete without
an error, with absent (`undefined`) data passed to the interpreter, on both
the blocking and non-blocking single-secret reads.  `SecretReader` behaves
that way, but both `DSSReader` variants raise the `ENOENT` error instead
(the async body returns the un-awaited promise inside its try, and the sync
catch block has the `!==` comparison inverted), contradicting the doc
comment on `readFileIgnoreMissing` itself. -/
theorem C1_missing_secret_read :
    SecretReader.readSecretFile (fsReadFile [("present", [49])] "missing") = .ok none
    ∧ (SecretReader.read [("present", [49])] [] [] 0 "missing"
        (some DefaultInterpretersSync.asBuffer)).result = secretRecord "missing" none .undefined
    ∧ DSSReader.readFileIgnoreMissing (fsReadFile [("present", [49])] "missing")
        = .error "ENOENT"
    ∧ DSSReader.readFileIgnoreMissingSync (fsReadFile [("present", [49])] "missing")
        = .error "ENOENT"
    ∧ DSSReader.readSecret [("present", [49])] "missing"
        (some DefaultInterpretersSync.asBuffer) = .error "ENOENT" :=
  ⟨rfl, rfl, rfl, rfl, rfl⟩

/-- C5: an I/O failure other than a missing file (here `EACCES`) is claimed
to always propagate.  `SecretReader.readSecretFile` and the (effectively
catch-free) async `DSSReader.readFileIgnoreMissing` do propagate it, but
`DSSReader.readFileIgnoreMissingSync` swallows it into an absent value, the
opposite of its own doc comment. -/
theorem C5_io_error_propagation :
    SecretReader.readSecretFile (.err "EACCES") = .error "EACCES"
    ∧ DSSReader.readFileIgnoreMissing (.err "EACCES") = .error "EACCES"
    ∧ DSSReader.readFileIgnoreMissingSync (.err "EACCES") = .ok none :=
  ⟨rfl, rfl, rfl⟩

/-- C7: `asJSON` yields the parsed structure exactly when the decoded text
parses as JSON, and the absent marker when the data is missing or the parse
fails; the parse failure is absorbed (the embedding is total) and the raw
text is never returned. -/
theorem C7_asJSON_parse_or_absent (decode : List Nat → String) (raw : RawSecret) :
    (raw.data = none → DefaultInterpretersSync.asJSON decode raw = .undefined)
    ∧ (∀ d, raw.data = some d → jsonParse (decode d) = none →
        DefaultInterpretersSync.asJSON decode raw = .undefined)
    ∧ (∀ d v, raw.data = some d → jsonParse (decode d) = some v →
        DefaultInterpretersSync.asJSON decode raw = v) := by
  refine ⟨fun h => ?_, fun d hd hp => ?_, fun d v hd hp => ?_⟩
  · simp [DefaultInterpretersSync.asJSON, h]
  · by_cases he : decode d = "" <;>
      simp [DefaultInterpretersSync.asJSON, hd, he, hp]
  · have he : decode d ≠ "" := by
      intro he
      rw [he, jsonParse_empty] at hp
      exact Option.noConfusion hp
    simp [DefaultInterpretersSync.asJSON, hd, he, hp]

/-- C7 witness: on the bytes of `{"a":1}` (ascii) the parsed object comes
back, and on the bytes of `not json` the absent marker comes back. -/
theorem C7_asJSON_witness :
    DefaultInterpretersSync.asJSON asciiDecode
      ⟨"s", some [123, 34, 97, 34, 58, 49, 125]⟩ = .obj [("a", .num 1)]
    ∧ DefaultInterpretersSync.asJSON asciiDecode
      ⟨"s", some [110, 111, 116, 32, 106, 115, 111, 110]⟩ = .undefined :=
  ⟨(C7_asJSON_parse_or_absent asciiDecode ⟨"s", some [123, 34, 97, 34, 58, 49, 125]⟩).2.2
      [123, 34, 97, 34, 58, 49, 125] (.obj [("a", .num 1)]) rfl rfl,
    (C7_asJSON_parse_or_absent asciiDecode
        ⟨"s", some [110, 111, 116, 32, 106, 115, 111, 110]⟩).2.1
      [110, 111, 116, 32, 106, 115, 111, 110] rfl rfl⟩

/-- C6 counterexample: a secret file that exists but is empty.  The data is
present, yet `asTextOrJSON` returns the absent marker, because the
`if (!text)` guard treats the empty decoded string like missing data.  This
falsifies the claim that the absent marker comes back if and only if `data`
is absent. -/
theorem C6_counterexample :
    DefaultInterpretersSync.asTextOrJSON asciiDecode ⟨"s", some []⟩ = .undefined
    ∧ (⟨"s", some []⟩ : RawSecret).data ≠ none :=
  ⟨rfl, by decide⟩

/-- C6 amended: `asTextOrJSON` returns the absent marker exactly when the
data is absent or the decoded text is empty; on a non-empty decoded text it
returns the parse result when the text parses as JSON and the plain text
otherwise, never the absent marker. -/
theorem C6_asTextOrJSON_amended (decode : List Nat → String) (raw : RawSecret) :
    (DefaultInterpretersSync.asTextOrJSON decode raw = .undefined
      ↔ raw.data = none ∨ ∃ d, raw.data = some d ∧ decode d = "")
    ∧ (∀ d, raw.data = some d → decode d ≠ "" →
        DefaultInterpretersSync.asTextOrJSON decode raw
          = (jsonParse (decode d)).getD (.str (decode d))) := by
  constructor
  · cases hd : raw.data with
    | none => simp [DefaultInterpretersSync.asTextOrJSON, hd]
    | some d =>
      by_cases he : decode d = ""
      · simp [DefaultInterpretersSync.asTextOrJSON, hd, he]
      · simp only [DefaultInterpretersSync.asTextOrJSON, hd, he, if_neg]
        constructor
        · intro h
          cases hp : jsonParse (decode d) with
          | none =>
            rw [hp] at h
            exact absurd h (fun hc => Val.noConfusion hc)
          | some v =>
            rw [hp] at h
            cases h
            exact absurd hp (fun hc => jsonParse_ne_undefined _ hc)
        · rintro (h | ⟨d', hd', he'⟩)
          · exact Option.noConfusion h
          · cases hd'
            exact absurd he' he
  · intro d hd he
    simp only [DefaultInterpretersSync.asTextOrJSON, hd, he, if_neg]
    cases hp : jsonParse (decode d) <;> simp [hp]

/-- C6 witness for the amended theorem: non-JSON text comes back as the
plain string, JSON text as the parsed structure. -/
theorem C6_asTextOrJSON_witness :
    DefaultInterpretersSync.asTextOrJSON asciiDecode
      ⟨"s", some [110, 111, 116, 32, 106, 115, 111, 110]⟩ = .str "not json"
    ∧ DefaultInterpretersSync.asTextOrJSON asciiDecode
      ⟨"s", some [123, 34, 97, 34, 58, 49, 125]⟩ = .obj [("a", .num 1)] :=
  ⟨((C6_asTextOrJSON_amended asciiDecode
        ⟨"s", some [110, 111, 116, 32, 106, 115, 111, 110]⟩).2
      [110, 111, 116, 32, 106, 115, 111, 110] rfl (by decide)).trans rfl,
    ((C6_asTextOrJSON_amended asciiDecode
        ⟨"s", some [123, 34, 97, 34, 58, 49, 125]⟩).2
      [123, 34, 97, 34, 58, 49, 125] rfl (by decide)).trans rfl⟩

/-- C8 counterexample: `SecretReader.read` hands the caller the
`{name, data, secret}` record, not the interpreted value itself.  With an
interpreter that computes the plain string `v` for the secret `n`, the
object returned by `read` is the wrapper record, which differs from that
value. -/
theorem C8_counterexample :
    (SecretReader.read [("n", [49])] [] [] 0 "n" (some fun _ => .str "v")).result
      = secretRecord "n" (some [49]) (.str "v")
    ∧ secretRecord "n" (some [49]) (.str "v") ≠ .str "v" :=
  ⟨rfl, fun h => Val.noConfusion h⟩

/-- C8 amended: the single-name reads `SecretReader.read` and
`DSSReader.readSecret` return the `{name, data, secret}` record whose
`secret` field holds the (unwrapped-from-annotation) interpreter value;
only the synchronous `SecretReader.readSecretSync` returns the value
itself. -/
theorem C8_read_returns_record (dir : Dir) (env : List (String × String))
    (cache : Cache) (now : Int) (name : String) (I : Interpreter) :
    (SecretReader.read dir env cache now name (some I)).result
      = secretRecord name (alookup dir name)
          (if isSecretObject (I ⟨name, alookup dir name⟩) then
            getProp (I ⟨name, alookup dir name⟩) "secret"
          else I ⟨name, alookup dir name⟩)
    ∧ SecretReader.readSecretSync dir name (some I) = I ⟨name, alookup dir name⟩
    ∧ (∀ d, alookup dir name = some d →
        DSSReader.readSecret dir name (some I)
          = .ok (secretRecord name (some d) (I ⟨name, some d⟩))) := by
  refine ⟨rfl, rfl, fun d hd => ?_⟩
  simp [DSSReader.readSecret, DSSReader.readFileIgnoreMissing, fsReadFile, hd]

/-- C8 witness: the amended record shape at a concrete directory, name and
interpreter. -/
theorem C8_read_returns_record_witness :
    (SecretReader.read [("n", [49])] [] [] 0 "n" (some fun _ => .str "v")).result
      = secretRecord "n" (some [49]) (.str "v")
    ∧ SecretReader.readSecretSync [("n", [49])] "n" (some fun _ => .str "v") = .str "v"
    ∧ DSSReader.readSecret [("n", [49])] "n" (some fun _ => .str "v")
      = .ok (secretRecord "n" (some [49]) (.str "v")) :=
  ⟨(C8_read_returns_record [("n", [49])] [] [] 0 "n" (fun _ => .str "v")).1,
    (C8_read_returns_record [("n", [49])] [] [] 0 "n" (fun _ => .str "v")).2.1,
    (C8_read_returns_record [("n", [49])] [] [] 0 "n" (fun _ => .str "v")).2.2 [49] rfl⟩

/-- C2: the claimed cache hit does not exist.  With an interpreter that
requests caching with `cacheFor = 0`, the first read stores a live cache
entry (`expiresAt = 0`, cache forever), yet a second read of the same name
on the same cache state still invokes the accessor and the interpreter —
`SecretReader.read` never consults `secretsCache` — and observably returns
a value recomputed from the directory contents (here changed to byte 50)
instead of the cached one. -/
theorem C2_cache_never_consulted :
    (alookup (SecretReader.read [("n", [49])] [] [] 0 "n"
        (some fun raw => .obj [("secret", bufVal raw.data), ("cacheFor", .num 0)])).cache
        "n").map (fun e => (e.secret, e.expiresAt)) = some (.buf [49], 0)
    ∧ (SecretReader.read [("n", [50])] []
        (SecretReader.read [("n", [49])] [] [] 0 "n"
          (some fun raw => .obj [("secret", bufVal raw.data), ("cacheFor", .num 0)])).cache
        5 "n"
        (some fun raw => .obj [("secret", bufVal raw.data), ("cacheFor", .num 0)])).interpreterInvoked
      = true
    ∧ (SecretReader.read [("n", [50])] []
        (SecretReader.read [("n", [49])] [] [] 0 "n"
          (some fun raw => .obj [("secret", bufVal raw.data), ("cacheFor", .num 0)])).cache
        5 "n"
        (some fun raw => .obj [("secret", bufVal raw.data), ("cacheFor", .num 0)])).accessorInvoked
      = true
    ∧ getProp (SecretReader.read [("n", [50])] []
        (SecretReader.read [("n", [49])] [] [] 0 "n"
          (some fun raw => .obj [("secret", bufVal raw.data), ("cacheFor", .num 0)])).cache
        5 "n"
        (some fun raw => .obj [("secret", bufVal raw.data), ("cacheFor", .num 0)])).result
        "secret"
      = .buf [50] :=
  ⟨rfl, rfl, rfl, rfl⟩

/-- C3: the claimed raw environment override does not exist.  With
`MY_VAR=X` in the environment and an interpreter whose annotated result
carries `envOverrideRaw: "MY_VAR"` and `secret: "computed"`,
`SecretReader.read` returns `computed`, not `X` — the body never reads the
environment at all, so the result is the same under any environment. -/
theorem C3_envOverrideRaw_ignored :
    getProp (SecretReader.read [("n", [49])] [("MY_VAR", "X")] [] 0 "n"
        (some fun _ => .obj [("secret", .str "computed"),
          ("envOverrideRaw", .str "MY_VAR")])).result "secret"
      = .str "computed"
    ∧ (.str "computed" : Val) ≠ .str "X"
    ∧ (∀ env : List (String × String),
        SecretReader.read [("n", [49])] env [] 0 "n"
            (some fun _ => .obj [("secret", .str "computed"),
              ("envOverrideRaw", .str "MY_VAR")])
          = SecretReader.read [("n", [49])] [] [] 0 "n"
            (some fun _ => .obj [("secret", .str "computed"),
              ("envOverrideRaw", .str "MY_VAR")])) :=
  ⟨rfl, fun h => by injection h with h'; exact absurd h' (by decide), fun _ => rfl⟩

/-- Bound a property value strictly below its enclosing object, so an
unwrapped `secret` field can never be the annotated object itself. -/
theorem alookup_sizeOf_lt (fs : List (String × Val)) (k : String) (v : Val)
    (h : alookup fs k = some v) : sizeOf v < sizeOf (Val.obj fs) := by
  induction fs with
  | nil => exact Option.noConfusion h
  | cons hd tl ih =>
    obtain ⟨k', w⟩ := hd
    rw [alookup] at h
    split at h
    · cases h
      simp
      omega
    · have := ih h
      simp at this ⊢
      omega

/-- C10: the pipeline decides annotatedness by runtime shape probing.  For
every interpreter returning an object whose own keys include `secret`, the
value the caller receives (the `secret` field of the returned record) is
that object's `secret` property — never the returned object itself — and
the probe `isSecretObject` accepts the object. -/
theorem C10_shape_probe (dir : Dir) (env : List (String × String)) (cache : Cache)
    (now : Int) (name : String) (fields : List (String × Val)) (I : Interpreter)
    (hI : I ⟨name, alookup dir name⟩ = .obj fields)
    (hk : "secret" ∈ fields.map Prod.fst) :
    isSecretObject (.obj fields) = true
    ∧ getProp (SecretReader.read dir env cache now name (some I)).result "secret"
      = getProp (.obj fields) "secret"
    ∧ getProp (.obj fields) "secret" ≠ .obj fields := by
  have hso : isSecretObject (.obj fields) = true := by
    have hc : (fields.map Prod.fst).contains "secret" = true := by
      rw [List.contains_iff_exists_mem_beq]
      exact ⟨"secret", hk, by simp⟩
    simp only [isSecretObject, isObjectType, objKeys, Bool.true_and]
    exact hc
  refine ⟨hso, ?_, ?_⟩
  · show getProp (secretRecord name (alookup dir name)
        (if isSecretObject (I ⟨name, alookup dir name⟩) then
          getProp (I ⟨name, alookup dir name⟩) "secret"
        else I ⟨name, alookup dir name⟩)) "secret" = _
    rw [hI, hso]
    simp [secretRecord, getProp, alookup]
  · cases hl : alookup fields "secret" with
    | none => simp [getProp, hl]
    | some v =>
      have := alookup_sizeOf_lt fields "secret" v hl
      simp [getProp, hl]
      intro h
      rw [h] at this
      omega

/-- C10 witness: a concrete interpreter returning a plain-looking object
that happens to contain a `secret` key is unwrapped. -/
theorem C10_shape_probe_witness :
    isSecretObject (.obj [("secret", .str "s"), ("x", .num 1)]) = true
    ∧ getProp (SecretReader.read [("n", [49])] [] [] 0 "n"
        (some fun _ => .obj [("secret", .str "s"), ("x", .num 1)])).result "secret"
      = getProp (.obj [("secret", .str "s"), ("x", .num 1)]) "secret"
    ∧ getProp (.obj [("secret", .str "s"), ("x", .num 1)]) "secret"
      ≠ .obj [("secret", .str "s"), ("x", .num 1)] :=
  C10_shape_probe [("n", [49])] [] [] 0 "n" [("secret", .str "s"), ("x", .num 1)]
    (fun _ => .obj [("secret", .str "s"), ("x", .num 1)]) rfl (by decide)

/-- A candidate entry matches a raw secret when its predicate is absent or
evaluates to true (the selection condition of both bulk loops). -/
def candMatches (c : PredicatedInterpreter) (raw : RawSecret) : Bool :=
  match c.predicate with
  | none => true
  | some p => p raw

/-- The inner candidate loop selects exactly the first matching entry and
runs its interpreter. -/
theorem scanCands_eq_find (cands : List PredicatedInterpreter) (raw : RawSecret) :
    scanCands cands raw
      = (cands.find? (fun c => candMatches c raw)).map fun c => c.interpreter raw := by
  induction cands with
  | nil => rfl
  | cons c rest ih =>
    rw [scanCands]
    cases hp : c.predicate with
    | none => simp [List.find?, candMatches, hp]
    | some p =>
      by_cases hpr : p raw = true
      · simp [List.find?, candMatches, hp, hpr]
      · simp [List.find?, candMatches, hp, hpr, ih]

/-- The blocking bulk read, entry by entry: each listed name contributes its
first-match value, or nothing. -/
theorem readSecretsSync_eq_filterMap (dir : Dir) (cands : List PredicatedInterpreter) :
    SecretReader.readSecretsSync dir cands
      = dir.filterMap fun p => (scanCands cands ⟨p.1, some p.2⟩).map fun v => (p.1, v) := by
  induction dir with
  | nil => rfl
  | cons hd tl ih =>
    obtain ⟨n, d⟩ := hd
    rw [SecretReader.readSecretsSync, List.filterMap_cons]
    cases h : scanCands cands ⟨n, some d⟩ <;> simp [h, ih]

/-- The DSSReader bulk read, entry by entry: the pushed records are the
first-match results per listed name. -/
theorem dssReadSecrets_eq_filterMap (dir : Dir) (cands : List PredicatedInterpreter) :
    DSSReader.readSecrets dir cands
      = dir.filterMap fun p =>
          (scanCands cands ⟨p.1, some p.2⟩).map fun v => secretRecord p.1 (some p.2) v := by
  induction dir with
  | nil => rfl
  | cons hd tl ih =>
    obtain ⟨n, d⟩ := hd
    rw [DSSReader.readSecrets, List.filterMap_cons]
    cases h : scanCands cands ⟨n, some d⟩ <;> simp [h, ih]

/-- Keyed lookup misses a filterMap-built map when the key is not among the
source names. -/
theorem alookup_filterMap_of_not_mem {α : Type} (F : String → List Nat → Option α)
    (dir : Dir) (n : String) (h : n ∉ dir.map Prod.fst) :
    alookup (dir.filterMap fun p => (F p.1 p.2).map fun v => (p.1, v)) n = none := by
  induction dir with
  | nil => rfl
  | cons hd tl ih =>
    obtain ⟨m, e⟩ := hd
    simp only [List.map_cons, List.mem_cons] at h
    push_neg at h
    rw [List.filterMap_cons]
    cases hF : F m e with
    | none => exact ih h.2
    | some v =>
      simp only [Option.map_some']
      rw [alookup, if_neg (fun hc => h.1 hc.symm)]
      exact ih h.2

/-- Keyed lookup of a filterMap-built map at a listed name gives exactly
that name's optional value, provided the listing has no duplicate names. -/
theorem alookup_filterMap {α : Type} (F : String → List Nat → Option α)
    (dir : Dir) (hnd : (dir.map Prod.fst).Nodup) (n : String) (d : List Nat)
    (hmem : (n, d) ∈ dir) :
    alookup (dir.filterMap fun p => (F p.1 p.2).map fun v => (p.1, v)) n = F n d := by
  induction dir with
  | nil => exact absurd hmem (List.not_mem_nil _)
  | cons hd tl ih =>
    obtain ⟨m, e⟩ := hd
    simp only [List.map_cons, List.nodup_cons] at hnd
    rw [List.filterMap_cons]
    rcases List.mem_cons.mp hmem with heq | htl
    · cases heq
      cases hF : F n d with
      | none => exact alookup_filterMap_of_not_mem F tl n hnd.1
      | some v => simp [alookup]
    · have hne : m ≠ n := fun hc => hnd.1 (hc ▸ List.mem_map_of_mem Prod.fst htl)
      cases hF : F m e with
      | none => exact ih hnd.2 htl
      | some v =>
        simp only [Option.map_some']
        rw [alookup, if_neg hne]
        exact ih hnd.2 htl

/-- C4: in both bulk reads, each listed name is interpreted by the first
candidate whose predicate is absent or true — the outcome per name equals
the first-match selection over the candidate list — and a name matching no
candidate is missing from the result entirely (its key does not occur),
with no error. -/
theorem C4_first_match_selection (cands : List PredicatedInterpreter) (dir : Dir)
    (hnd : (dir.map Prod.fst).Nodup) (n : String) (d : List Nat)
    (hmem : (n, d) ∈ dir) :
    alookup (SecretReader.readSecretsSync dir cands) n
      = (cands.find? (fun c => candMatches c ⟨n, some d⟩)).map
          (fun c => c.interpreter ⟨n, some d⟩)
    ∧ DSSReader.readSecrets dir cands
      = dir.filterMap (fun p =>
          (cands.find? (fun c => candMatches c ⟨p.1, some p.2⟩)).map
            (fun c => secretRecord p.1 (some p.2) (c.interpreter ⟨p.1, some p.2⟩))) := by
  constructor
  · rw [readSecretsSync_eq_filterMap,
      alookup_filterMap (fun m e => scanCands cands ⟨m, some e⟩) dir hnd n d hmem,
      scanCands_eq_find]
  · rw [dssReadSecrets_eq_filterMap]
    congr 1
    funext p
    rw [scanCands_eq_find, Option.map_map]
    rfl

/-- C4 witness: with a predicated interpreter ahead of an unconditional one,
the secret matching the predicate gets the first interpreter's value (never
the unconditional one's), and a secret whose only candidate's predicate is
false is missing from the result. -/
theorem C4_first_match_selection_witness :
    alookup (SecretReader.readSecretsSync [("a", [49]), ("b", [50])]
        [⟨fun _ => .str "I1", some fun raw => raw.name == "a"⟩,
          ⟨fun _ => .str "I2", none⟩]) "a"
      = some (.str "I1")
    ∧ alookup (SecretReader.readSecretsSync [("a", [49]), ("b", [50])]
        [⟨fun _ => .str "I1", some fun raw => raw.name == "a"⟩]) "b"
      = none
    ∧ DSSReader.readSecrets [("b", [50])]
        [⟨fun _ => .str "I1", some fun raw => raw.name == "a"⟩]
      = [] :=
  ⟨(C4_first_match_selection
      [⟨fun _ => .str "I1", some fun raw => raw.name == "a"⟩, ⟨fun _ => .str "I2", none⟩]
      [("a", [49]), ("b", [50])] (by decide) "a" [49] (by decide)).1.trans rfl,
    (C4_first_match_selection
      [⟨fun _ => .str "I1", some fun raw => raw.name == "a"⟩]
      [("a", [49]), ("b", [50])] (by decide) "b" [50] (by decide)).1.trans rfl,
    (C4_first_match_selection
      [⟨fun _ => .str "I1", some fun raw => raw.name == "a"⟩]
      [("b", [50])] (by decide) "b" [50] (by decide)).2.trans rfl⟩

/-- C9 counterexample: on the same directory and the same single
unconditional `asBuffer` candidate, the non-blocking bulk read maps the
name to the `{name, data, secret}` record while the blocking one maps it to
the bare interpreted value, so the two mappings differ at the shared
key. -/
theorem C9_counterexample :
    SecretReader.readSecrets [("a", [49])] [⟨DefaultInterpretersSync.asBuffer, none⟩]
      = [("a", secretRecord "a" (some [49]) (.buf [49]))]
    ∧ SecretReader.readSecretsSync [("a", [49])] [⟨DefaultInterpretersSync.asBuffer, none⟩]
      = [("a", .buf [49])]
    ∧ secretRecord "a" (some [49]) (.buf [49]) ≠ .buf [49] :=
  ⟨rfl, rfl, fun h => Val.noConfusion h⟩

/-- C9 amended: the two bulk reads agree on the key sequence, and at each
key the non-blocking result is the record whose `secret` field is the
blocking result's value. -/
theorem C9_bulk_reads_agree_up_to_record (dir : Dir)
    (cands : List PredicatedInterpreter) :
    List.Forall₂ (fun (a b : String × Val) => a.1 = b.1 ∧ getProp a.2 "secret" = b.2)
      (SecretReader.readSecrets dir cands) (SecretReader.readSecretsSync dir cands) := by
  induction dir with
  | nil => exact .nil
  | cons hd tl ih =>
    obtain ⟨n, d⟩ := hd
    rw [SecretReader.readSecrets, SecretReader.readSecretsSync]
    cases h : scanCands cands ⟨n, some d⟩ with
    | none => exact ih
    | some v => exact .cons ⟨rfl, rfl⟩ ih

end DSS
